import Mathlib

/-!
Verification of the scheduling / deduplication core of the
`astrbot_plugin_daily_sharing` repository.

The definitions below are a shallow embedding of the Python source:

* `src/config.py`      — `TimePeriod`, `SharingType`, `SHARING_TYPE_SEQUENCES`,
                         `NEWS_TIME_PREFERENCES`, `NEWS_SOURCE_MAP` (keys).
* `src/main.py`        — `_decide_type_with_state`, `_execute_share` (the
                         per-recipient loop and its history entries).
* `src/core/news.py`   — `select_news_source`, `_select_by_time`.
* `src/core/db.py`     — `_sync_get_used_topics` over the `topic_history` table.
* `src/core/context.py`— `check_group_strategy`.
* `src/core/content.py`— `_update_history`, the per-target topic history.

Modelling conventions:
* Python dicts that are used as ordered key/value maps (JSON state,
  weight tables) are association lists; `alistLookup`/`alistSet` model
  `d.get`/`d[k] = v` (insertion order preserved, first binding wins).
* `random.choice(pool)` is modelled by an arbitrary index `r : Nat`
  reduced mod the pool length (`pyChoice`); `random.choices(pop, weights)`
  is modelled by `weightedChoice` applied to an arbitrary draw
  `u : ℚ` with `0 ≤ u < total`, which matches CPython's cumulative-weight
  bisection (`none` corresponds to the `ValueError` raised when the total
  weight is not positive).
* Weights written as decimal literals in the source are exact decimal
  rationals, so they are embedded as `ℚ`; the properties proved here
  (membership, zero vs. positive mass) do not depend on rounding.
* Timestamps stored as `"%Y-%m-%d %H:%M:%S"` strings are compared
  lexicographically by SQLite, which coincides with chronological order,
  so they are embedded as `Int` seconds; `timedelta(days=d)` is
  `d * 86400` seconds.  The `isoformat` timestamp stored in the scheduler
  state file is opaque to every claim and is embedded as a `String`.
-/

/-! ### Basic enumerations (src/config.py) -/

inductive SharingType where
  | greeting
  | news
  | mood
  | knowledge
  | recommendation
deriving DecidableEq

def SharingType.val : SharingType → String
  | .greeting => "greeting"
  | .news => "news"
  | .mood => "mood"
  | .knowledge => "knowledge"
  | .recommendation => "recommendation"

/-- Model of `SharingType(s)`: the enum constructor call; `none` models the
`ValueError` raised for a string that is not a member value. -/
def parseSharingType (s : String) : Option SharingType :=
  if s = "greeting" then some .greeting
  else if s = "news" then some .news
  else if s = "mood" then some .mood
  else if s = "knowledge" then some .knowledge
  else if s = "recommendation" then some .recommendation
  else none

inductive TimePeriod where
  | dawn
  | morning
  | forenoon
  | afternoon
  | evening
  | night
  | late_night
deriving DecidableEq

def TimePeriod.val : TimePeriod → String
  | .dawn => "dawn"
  | .morning => "morning"
  | .forenoon => "forenoon"
  | .afternoon => "afternoon"
  | .evening => "evening"
  | .night => "night"
  | .late_night => "late_night"

/-- Table `SHARING_TYPE_SEQUENCES` from `src/config.py` (the dict covers all seven
periods, so the `.get(period, [GREETING.value])` default in `main.py` is
never taken and the map is embedded as a total function). -/
def SHARING_TYPE_SEQUENCES : TimePeriod → List String
  | .dawn => ["mood"]
  | .morning => ["greeting"]
  | .forenoon => ["news", "knowledge"]
  | .afternoon => ["news", "knowledge"]
  | .evening => ["recommendation", "news"]
  | .night => ["recommendation", "mood"]
  | .late_night => ["mood", "greeting"]

/-- The keys of `NEWS_SOURCE_MAP` in insertion order (src/config.py). -/
def NEWS_SOURCE_KEYS : List String :=
  ["zhihu", "weibo", "quark", "bili", "xiaohongshu", "douyin",
   "toutiao", "baidu", "tencent"]

/-- Table `NEWS_TIME_PREFERENCES` from `src/config.py`, entries in source order. -/
def NEWS_TIME_PREFERENCES : TimePeriod → List (String × ℚ)
  | .dawn =>
    [("zhihu", 0.30), ("bili", 0.20), ("douyin", 0.15), ("xiaohongshu", 0.10),
     ("weibo", 0.10), ("quark", 0.05), ("toutiao", 0.05), ("baidu", 0.05),
     ("tencent", 0.05)]
  | .morning =>
    [("xiaohongshu", 0.20), ("weibo", 0.20), ("quark", 0.15), ("toutiao", 0.10),
     ("baidu", 0.10), ("bili", 0.10), ("douyin", 0.10), ("tencent", 0.05),
     ("zhihu", 0.05)]
  | .forenoon =>
    [("weibo", 0.20), ("quark", 0.15), ("toutiao", 0.15), ("zhihu", 0.15),
     ("baidu", 0.10), ("tencent", 0.05), ("xiaohongshu", 0.10), ("bili", 0.10),
     ("douyin", 0.05)]
  | .afternoon =>
    [("douyin", 0.20), ("quark", 0.15), ("zhihu", 0.15), ("weibo", 0.10),
     ("bili", 0.10), ("baidu", 0.10), ("toutiao", 0.10), ("xiaohongshu", 0.10),
     ("tencent", 0.05)]
  | .evening =>
    [("bili", 0.20), ("quark", 0.15), ("weibo", 0.15), ("douyin", 0.15),
     ("tencent", 0.10), ("xiaohongshu", 0.10), ("zhihu", 0.10), ("baidu", 0.05),
     ("toutiao", 0.05)]
  | .night =>
    [("douyin", 0.25), ("bili", 0.20), ("weibo", 0.15), ("quark", 0.10),
     ("xiaohongshu", 0.10), ("baidu", 0.10), ("zhihu", 0.05), ("tencent", 0.05)]
  | .late_night =>
    [("xiaohongshu", 0.25), ("zhihu", 0.20), ("bili", 0.20), ("douyin", 0.15),
     ("weibo", 0.10), ("quark", 0.05), ("baidu", 0.05), ("tencent", 0.05),
     ("toutiao", 0.00)]

/-! ### Python container primitives -/

/-- Model of `d.get(k)` / `k in d` on an ordered dict modelled as an assoc list. -/
def alistLookup [DecidableEq α] : List (α × β) → α → Option β
  | [], _ => none
  | (a, b) :: t, k => if a = k then some b else alistLookup t k

/-- Model of `d[k] = v` on an ordered dict: replace the binding in place, or append a
new binding (CPython dicts preserve insertion order). -/
def alistSet [DecidableEq α] : List (α × β) → α → β → List (α × β)
  | [], k, v => [(k, v)]
  | (a, b) :: t, k, v => if a = k then (k, v) :: t else (a, b) :: alistSet t k v

/-- Model of `del d[k]` on an ordered dict (keys are unique in every dict embedded
here, so removing every binding of `k` equals removing the one binding). -/
def alistDel [DecidableEq α] (m : List (α × β)) (k : α) : List (α × β) :=
  m.filter (fun p => p.1 ≠ k)

/-- Model of `lst.remove(x)`: drop the first occurrence. -/
def pyRemove [DecidableEq α] : List α → α → List α
  | [], _ => []
  | a :: t, x => if a = x then t else a :: pyRemove t x

/-- Model of `lst[-n:]` on a Python list: the last `n` elements when `n > 0`, and the
whole list when `n = 0` (Python's `lst[-0:]` is `lst[0:]`). -/
def pyTakeLast (n : Nat) (l : List α) : List α :=
  if n = 0 then l else l.drop (l.length - n)

/-- Model of `random.choice(pool)` with the draw abstracted into an index `r`;
`none` models the `IndexError` on an empty pool. -/
def pyChoice (l : List α) (r : Nat) : Option α :=
  l.get? (r % l.length)

/-- Model of `random.choices(pop, weights=ws, k=1)[0]` for `pop`/`ws` zipped into one
list, with the uniform draw `u ∈ [0, total)` abstracted: walk the cumulative
weights and return the first element whose interval contains `u`.  For
`0 ≤ u`, a `none` result means `u` is at or past the total weight, which for
every draw of `u ∈ [0, total)` happens exactly when the total weight is not
positive — the case where CPython raises `ValueError`. -/
def weightedChoice : List (String × ℚ) → ℚ → Option String
  | [], _ => none
  | (s, w) :: rest, u => if u < w then some s else weightedChoice rest (u - w)

/-! ### Scheduler state (src/main.py) -/

/-- The JSON object persisted in `sharing_state.json`.  The first four
fields are the `ScheduleState` written by `_decide_type_with_state`
(`main.py`); `targets_history` is the per-target topic history written into
the same file by `ContentService._update_history` (`core/content.py`):
target id ↦ key type ↦ list of summaries. -/
structure FullState where
  sequence_index : Nat
  last_period : Option String
  last_timestamp : Option String
  last_type : Option String
  targets_history : List (String × List (String × List String))
deriving DecidableEq

/-- The parts of `basic_conf` read by `_decide_type_with_state`:
`sharing_type` (default `"auto"`) and the per-period
`<period>_sequence` lists (default `[]`), folded into one function via
`config_key_map`. -/
structure BasicConf where
  sharing_type : String
  seqFor : TimePeriod → List String

/-- The sequence actually rotated over: the configured `<period>_sequence`
when nonempty, otherwise the built-in `SHARING_TYPE_SEQUENCES` entry
(the two lines `seq = self.basic_conf.get(config_key, [])` /
`if not seq: seq = SHARING_TYPE_SEQUENCES.get(...)`). -/
def effectiveSeq (conf : BasicConf) (p : TimePeriod) : List String :=
  if conf.seqFor p = [] then SHARING_TYPE_SEQUENCES p else conf.seqFor p

/-- Model of `_decide_type_with_state` (src/main.py lines 781-820).  The state file
load/save is made explicit: the function consumes the loaded state and
returns the state it persists.  `seq.getD idx "greeting"` stands for the
Python indexing `seq[idx]`; the clamp just above guarantees
`idx < seq.length` whenever `seq` is nonempty, and `seq` is never empty
because `SHARING_TYPE_SEQUENCES` is nonempty for every period, so the
default is never consulted (nor can the `% seq.length` divide by zero). -/
def decide_type_with_state (conf : BasicConf) (st : FullState) (p : TimePeriod)
    (now : String) : SharingType × FullState :=
  match if conf.sharing_type = "auto" then none
        else parseSharingType conf.sharing_type with
  | some t => (t, st)
  | none =>
    let st1 := if st.last_period ≠ some p.val then
                 { st with sequence_index := 0 } else st
    let seq := effectiveSeq conf p
    let idx := if st1.sequence_index ≥ seq.length then 0 else st1.sequence_index
    let selected := seq.getD idx "greeting"
    let st2 := { st1 with
      last_period := some p.val,
      sequence_index := (idx + 1) % seq.length,
      last_timestamp := some now,
      last_type := some selected }
    ((parseSharingType selected).getD SharingType.greeting, st2)

/-! ### Per-target topic history (src/core/content.py) -/

/-- Model of `content_summary.split("\n")[0][:15].replace("推荐", "").replace("分享", "")`
from `_update_history`. -/
def derive_summary (content_summary : String) : String :=
  ((((content_summary.splitOn "\n").headD "").take 15).replace "推荐" "").replace
    "分享" ""

/-- Model of `ContentService._update_history` (src/core/content.py lines 229-256):
append the derived summary to the `(target_id, key_type)` history inside
`targets_history` and keep only the last `topic_history_limit` entries.
Only the `targets_history` key of the shared state file is modified. -/
def update_history (limit : Nat) (key_type content_summary target_id : String)
    (st : FullState) : FullState :=
  let th := st.targets_history
  let tgt := (alistLookup th target_id).getD []
  let history := (alistLookup tgt key_type).getD []
  let history := history ++ [derive_summary content_summary]
  let history := if history.length > limit then pyTakeLast limit history
                 else history
  { st with targets_history := alistSet th target_id (alistSet tgt key_type history) }

/-- Convenience accessor for the stored `(target, key_type)` history list. -/
def storedHistory (st : FullState) (target_id key_type : String) : List String :=
  (alistLookup ((alistLookup st.targets_history target_id).getD []) key_type).getD []

/-! ### The run coordinator loop (src/main.py, `_execute_share`) -/

/-- What happens while one recipient is processed, abstracting the external
collaborators (history fetch, LLM generation, media generation, delivery):

* `skip`    — the automatic-trigger group-strategy check returned `False`
              (`continue`, nothing recorded);
* `genFail` — `content_service.generate` returned `None`
              (a failed history entry is appended, then `continue`);
* `err`     — an exception escaped the per-recipient body and was caught by
              the `except` clause (it only logs; nothing is appended);
* `ok content updates` — generation produced `content`; `updates` are the
  `(key_type, content_summary)` pairs the generator passed to
  `_update_history` for this target, and a success entry is appended.
  (`_send` swallows its own exceptions, so delivery failures still follow
  the `ok` path.) -/
inductive RecipientEvent where
  | skip
  | genFail
  | err
  | ok (content : String) (updates : List (String × String))
deriving DecidableEq

/-- One record appended to `sharing_history` by `_append_history`.  The
wall-clock `timestamp` field and the emotion-tag-stripping regex applied to
the preview are orthogonal to every claim and are omitted / identity here
(`content` stands for the already-cleaned text). -/
structure HistEntry where
  target : String
  stype : String
  content : String
  success : Bool
deriving DecidableEq

/-- The body of the `for uid in targets:` loop of `_execute_share`
(src/main.py lines 573-662) for one recipient: the successor state and the
optional history entry appended. -/
def process_target (limit : Nat) (stype : String) (uid : String)
    (ev : RecipientEvent) (st : FullState) : FullState × Option HistEntry :=
  match ev with
  | .skip => (st, none)
  | .genFail => (st, some ⟨uid, stype, "生成失败 (LLM无响应)", false⟩)
  | .err => (st, none)
  | .ok content updates =>
    (updates.foldl (fun s kv => update_history limit kv.1 kv.2 uid s) st,
     some ⟨uid, stype, content.take 100 ++ "...", true⟩)

/-- The whole `for uid in targets:` loop: threads the state file through the
recipients in order and collects the appended history entries. -/
def run_targets (limit : Nat) (stype : String) :
    List (String × RecipientEvent) → FullState → FullState × List HistEntry
  | [], st => (st, [])
  | (uid, ev) :: rest, st =>
    let r1 := process_target limit stype uid ev st
    let r2 := run_targets limit stype rest r1.1
    (r2.1, r1.2.toList ++ r2.2)

/-- Model of `_execute_share` (src/main.py lines 531-662), restricted to its effect on
the persisted state and the history log: decide the sharing type (forced
type bypasses `_decide_type_with_state`), then process every recipient. -/
def execute_share (conf : BasicConf) (limit : Nat)
    (force_type : Option SharingType) (p : TimePeriod) (now : String)
    (targets : List (String × RecipientEvent)) (st : FullState) :
    SharingType × FullState × List HistEntry :=
  let dec := match force_type with
    | some t => (t, st)
    | none => decide_type_with_state conf st p now
  let run := run_targets limit dec.1.val targets dec.2
  (dec.1, run.1, run.2)

/-! ### Weighted news-source selection (src/core/news.py) -/

/-- The parts of `news_conf` read by `select_news_source` /
`_select_by_time`: `news_random_mode` (default `"config"`),
`news_api_source` (default `"zhihu"`) and `news_random_sources`
(`none` models an absent key; `some []` an empty configured list — both are
falsy where the source tests `if conf:`). -/
structure NewsConf where
  mode : String
  apiSource : String
  randomSources : Option (List String)

/-- The `prefs` dict of `_select_by_time` after the exclusion step:
`del prefs[excluded_source]` runs only when the excluded label is a truthy
string, is a key of the period's table, and the table has more than one
entry. -/
def prefsAfterExclusion (period : TimePeriod) (excluded : Option String) :
    List (String × ℚ) :=
  let prefs := NEWS_TIME_PREFERENCES period
  match excluded with
  | some e =>
    if e ≠ "" ∧ (alistLookup prefs e).isSome ∧ prefs.length > 1 then
      alistDel prefs e
    else prefs
  | none => prefs

/-- Model of `prefs.get(s, 0.1)`: the floor applies only to labels missing from the
(post-exclusion) table; a label present with weight `0.0` keeps `0.0`. -/
def floorGet (prefs : List (String × ℚ)) (s : String) : ℚ :=
  (alistLookup prefs s).getD (1 / 10)

/-- The `valid` candidate list of `_select_by_time` when a configured
allow-list is present: the allow-list filtered against the post-exclusion
table, falling back — when that intersection is empty — to the allow-list
filtered against the *original* (unfiltered) table. -/
def timeBasedValid (period : TimePeriod) (conf : List String)
    (excluded : Option String) : List String :=
  let prefs := prefsAfterExclusion period excluded
  let valid := conf.filter (fun s => (alistLookup prefs s).isSome)
  if valid = [] then
    conf.filter (fun s => (alistLookup (NEWS_TIME_PREFERENCES period) s).isSome)
  else valid

/-- The population/weight pairs handed to `random.choices` in the allow-list
branch of `_select_by_time`: each candidate weighted by
`prefs.get(s, 0.1) / total` with a zero total coerced to `1`. -/
def timeBasedDist (period : TimePeriod) (conf : List String)
    (excluded : Option String) : List (String × ℚ) :=
  let prefs := prefsAfterExclusion period excluded
  let valid := timeBasedValid period conf excluded
  let total := (valid.map (floorGet prefs)).sum
  let total := if total = 0 then 1 else total
  valid.map (fun s => (s, floorGet prefs s / total))

/-- Model of `_select_by_time` (src/core/news.py lines 56-106).  The current period is
a parameter (the source reads it from the wall clock); `u` and `r` abstract
the random draws. -/
def selectByTime (period : TimePeriod) (randomSources : Option (List String))
    (excluded : Option String) (u : ℚ) (r : Nat) : Option String :=
  let prefs := prefsAfterExclusion period excluded
  match randomSources with
  | some conf =>
    if conf = [] then
      let prefs2 := if prefs = [] then NEWS_TIME_PREFERENCES period else prefs
      weightedChoice prefs2 u
    else if timeBasedValid period conf excluded ≠ [] then
      weightedChoice (timeBasedDist period conf excluded) u
    else
      pyChoice conf r
  | none =>
    let prefs2 := if prefs = [] then NEWS_TIME_PREFERENCES period else prefs
    weightedChoice prefs2 u

/-- Model of `select_news_source` (src/core/news.py lines 24-54). -/
def select_news_source (nc : NewsConf) (excluded : Option String)
    (period : TimePeriod) (u : ℚ) (r : Nat) : Option String :=
  if nc.mode = "fixed" then some nc.apiSource
  else if nc.mode = "random" then
    let keys := NEWS_SOURCE_KEYS
    let keys := match excluded with
      | some e => if e ≠ "" ∧ e ∈ keys ∧ keys.length > 1 then pyRemove keys e
                  else keys
      | none => keys
    pyChoice keys r
  else if nc.mode = "config" then
    let c := nc.randomSources.getD ["zhihu", "weibo"]
    let valid := c.filter (fun s => s ∈ NEWS_SOURCE_KEYS)
    let valid := if valid = [] then ["zhihu"] else valid
    let valid := match excluded with
      | some e => if e ≠ "" ∧ e ∈ valid ∧ valid.length > 1 then pyRemove valid e
                  else valid
      | none => valid
    pyChoice valid r
  else if nc.mode = "time_based" then
    selectByTime period nc.randomSources excluded u r
  else some "zhihu"

/-! ### Topic ledger (src/core/db.py) -/

/-- One row of the `topic_history` table. -/
structure TopicRecord where
  target : String
  category : String
  key : String
  createdAt : Int
deriving DecidableEq

/-- Model of `_sync_get_used_topics` (src/core/db.py lines 161-178): the keys of the
rows for `(target, category)` whose `created_at` is strictly later than
`now - days_limit` days, in row order. -/
def get_used_topics (table : List TopicRecord) (target category : String)
    (now : Int) (days_limit : Int) : List String :=
  let date_limit := now - days_limit * 86400
  (table.filter (fun r =>
    r.target = target ∧ r.category = category ∧ date_limit < r.createdAt)).map
    (fun r => r.key)

/-! ### Group suppression policy (src/core/context.py) -/

/-- The two fields of the activity snapshot consulted by
`check_group_strategy`; `none` models a falsy (absent/empty) `group_info`. -/
structure GroupInfo where
  is_discussing : Bool
  chat_intensity : String
deriving DecidableEq

/-- Model of `check_group_strategy` (src/core/context.py lines 723-733): `false`
means the post is suppressed. -/
def check_group_strategy (strategy : String) (group_info : Option GroupInfo) :
    Bool :=
  match group_info with
  | none => true
  | some g =>
    if strategy = "cautious" then
      if g.is_discussing = true ∧ g.chat_intensity = "high" then false else true
    else if strategy = "minimal" then
      if g.is_discussing = true ∨ g.chat_intensity ≠ "low" then false else true
    else true

/-! ### Helper lemmas -/

lemma parseSharingType_val (t : SharingType) : parseSharingType t.val = some t := by
  cases t <;> rfl

lemma SHARING_TYPE_SEQUENCES_ne_nil (p : TimePeriod) :
    SHARING_TYPE_SEQUENCES p ≠ [] := by
  cases p <;> simp [SHARING_TYPE_SEQUENCES]

lemma effectiveSeq_ne_nil (conf : BasicConf) (p : TimePeriod) :
    effectiveSeq conf p ≠ [] := by
  unfold effectiveSeq
  split
  · exact SHARING_TYPE_SEQUENCES_ne_nil p
  · assumption

lemma effectiveSeq_of_nonempty (conf : BasicConf) (p : TimePeriod)
    (h : conf.seqFor p ≠ []) : effectiveSeq conf p = conf.seqFor p := by
  simp [effectiveSeq, h]

lemma effectiveSeq_of_empty (conf : BasicConf) (p : TimePeriod)
    (h : conf.seqFor p = []) : effectiveSeq conf p = SHARING_TYPE_SEQUENCES p := by
  simp [effectiveSeq, h]

lemma getD_mem {α : Type} (l : List α) (i : Nat) (d : α) (h : i < l.length) :
    l.getD i d ∈ l := by
  induction l generalizing i with
  | nil => simp at h
  | cons a t ih =>
    cases i with
    | zero => simp [List.getD]
    | succ j =>
      simp only [List.getD_cons_succ]
      exact List.mem_cons_of_mem a (ih j (by simpa using h))

/-- Characterization of one scheduler transition in auto mode. -/
lemma decide_auto (conf : BasicConf) (st : FullState) (p : TimePeriod)
    (now : String) (hauto : conf.sharing_type = "auto") :
    decide_type_with_state conf st p now =
      (let seq := effectiveSeq conf p
       let st1 := if st.last_period ≠ some p.val then
                    { st with sequence_index := 0 } else st
       let idx := if st1.sequence_index ≥ seq.length then 0
                  else st1.sequence_index
       ((parseSharingType (seq.getD idx "greeting")).getD SharingType.greeting,
        { st1 with
          last_period := some p.val,
          sequence_index := (idx + 1) % seq.length,
          last_timestamp := some now,
          last_type := some (seq.getD idx "greeting") })) := by
  unfold decide_type_with_state
  rw [hauto]
  rfl

lemma decide_step (conf : BasicConf) (st : FullState) (p : TimePeriod)
    (now : String) (hauto : conf.sharing_type = "auto")
    (hsame : st.last_period = some p.val)
    (hidx : st.sequence_index < (effectiveSeq conf p).length) :
    decide_type_with_state conf st p now =
      ((parseSharingType ((effectiveSeq conf p).getD st.sequence_index
          "greeting")).getD SharingType.greeting,
       { st with
         last_period := some p.val,
         sequence_index := (st.sequence_index + 1) % (effectiveSeq conf p).length,
         last_timestamp := some now,
         last_type := some ((effectiveSeq conf p).getD st.sequence_index
           "greeting") }) := by
  rw [decide_auto conf st p now hauto]
  simp only [hsame, ne_eq, not_true_eq_false, if_false, ge_iff_le,
    if_neg (not_le.mpr hidx)]

lemma decide_reset (conf : BasicConf) (st : FullState) (p : TimePeriod)
    (now : String) (hauto : conf.sharing_type = "auto")
    (hdiff : st.last_period ≠ some p.val) :
    decide_type_with_state conf st p now =
      ((parseSharingType ((effectiveSeq conf p).getD 0 "greeting")).getD
          SharingType.greeting,
       { st with
         last_period := some p.val,
         sequence_index := 1 % (effectiveSeq conf p).length,
         last_timestamp := some now,
         last_type := some ((effectiveSeq conf p).getD 0 "greeting") }) := by
  have hlen : 0 < (effectiveSeq conf p).length :=
    List.length_pos.mpr (effectiveSeq_ne_nil conf p)
  rw [decide_auto conf st p now hauto]
  simp only [if_pos hdiff, ge_iff_le, if_neg (not_le.mpr hlen)]

lemma alistLookup_alistSet_self [DecidableEq α] (m : List (α × β)) (k : α)
    (v : β) : alistLookup (alistSet m k v) k = some v := by
  induction m with
  | nil => simp [alistSet, alistLookup]
  | cons hd tl ih =>
    cases hd with
    | mk a b =>
      by_cases h : a = k
      · simp [alistSet, alistLookup, h]
      · simp only [alistSet, if_neg h, alistLookup]
        exact ih

lemma alistLookup_alistDel_self [DecidableEq α] (m : List (α × β)) (k : α) :
    alistLookup (alistDel m k) k = none := by
  induction m with
  | nil => rfl
  | cons hd tl ih =>
    by_cases h : hd.1 = k
    · simpa [alistDel, List.filter_cons, h] using ih
    · simpa [alistDel, alistLookup, List.filter_cons, h] using ih

lemma pyChoice_mem {α : Type} (l : List α) (r : Nat) (s : α)
    (h : pyChoice l r = some s) : s ∈ l :=
  List.get?_mem h

lemma pyRemove_subset [DecidableEq α] (l : List α) (x b : α)
    (h : b ∈ pyRemove l x) : b ∈ l := by
  induction l with
  | nil => simp [pyRemove] at h
  | cons a t ih =>
    simp only [pyRemove] at h
    by_cases hax : a = x
    · simp [hax] at h; exact List.mem_cons_of_mem a h
    · rw [if_neg hax] at h
      rcases List.mem_cons.mp h with h1 | h2
      · exact h1 ▸ List.mem_cons_self a t
      · exact List.mem_cons_of_mem a (ih h2)

lemma not_mem_pyRemove_self [DecidableEq α] (l : List α) (x : α)
    (hnd : l.Nodup) : x ∉ pyRemove l x := by
  induction l with
  | nil => simp [pyRemove]
  | cons a t ih =>
    simp only [pyRemove]
    rcases List.nodup_cons.mp hnd with ⟨hna, hnt⟩
    by_cases hax : a = x
    · rw [if_pos hax]; exact hax ▸ hna
    · rw [if_neg hax]
      intro hmem
      rcases List.mem_cons.mp hmem with h1 | h2
      · exact hax h1.symm
      · exact ih hnt h2

lemma weightedChoice_mem (l : List (String × ℚ)) (u : ℚ) (s : String)
    (h : weightedChoice l u = some s) : ∃ w, (s, w) ∈ l := by
  induction l generalizing u with
  | nil => simp [weightedChoice] at h
  | cons hd tl ih =>
    cases hd with
    | mk a w =>
      simp only [weightedChoice] at h
      split at h
      · refine ⟨w, ?_⟩
        rw [Option.some_inj.mp h]
        exact List.mem_cons_self _ _
      · rcases ih (u - w) h with ⟨w2, hw2⟩
        exact ⟨w2, List.mem_cons_of_mem _ hw2⟩

lemma weightedChoice_pos (l : List (String × ℚ)) (u : ℚ) (s : String)
    (hu : 0 ≤ u) (h : weightedChoice l u = some s) :
    ∃ w, (s, w) ∈ l ∧ 0 < w := by
  induction l generalizing u with
  | nil => simp [weightedChoice] at h
  | cons hd tl ih =>
    cases hd with
    | mk a w =>
      simp only [weightedChoice] at h
      split at h
      · rename_i hlt
        refine ⟨w, ?_, lt_of_le_of_lt hu hlt⟩
        rw [Option.some_inj.mp h]
        exact List.mem_cons_self _ _
      · rename_i hnlt
        rcases ih (u - w) (by linarith [not_lt.mp hnlt]) h with ⟨w2, hw2, hpos⟩
        exact ⟨w2, List.mem_cons_of_mem _ hw2, hpos⟩

lemma pyTakeLast_suffix {α : Type} (n : Nat) (l : List α) :
    pyTakeLast n l <:+ l := by
  unfold pyTakeLast
  split
  · exact List.suffix_refl l
  · exact List.drop_suffix _ l

lemma pyTakeLast_length {α : Type} (n : Nat) (l : List α) (h : n ≠ 0) :
    (pyTakeLast n l).length = min n l.length := by
  unfold pyTakeLast
  rw [if_neg h, List.length_drop]
  omega

lemma update_history_schedule (limit : Nat) (k c t : String) (st : FullState) :
    (update_history limit k c t st).sequence_index = st.sequence_index ∧
    (update_history limit k c t st).last_period = st.last_period ∧
    (update_history limit k c t st).last_timestamp = st.last_timestamp ∧
    (update_history limit k c t st).last_type = st.last_type :=
  ⟨rfl, rfl, rfl, rfl⟩

lemma foldl_update_history_schedule (limit : Nat) (uid : String)
    (updates : List (String × String)) (st : FullState) :
    let st2 := updates.foldl (fun s kv => update_history limit kv.1 kv.2 uid s) st
    st2.sequence_index = st.sequence_index ∧
    st2.last_period = st.last_period ∧
    st2.last_timestamp = st.last_timestamp ∧
    st2.last_type = st.last_type := by
  induction updates generalizing st with
  | nil => exact ⟨rfl, rfl, rfl, rfl⟩
  | cons hd tl ih =>
    simpa [List.foldl_cons, update_history] using
      ih (update_history limit hd.1 hd.2 uid st)

lemma process_target_schedule (limit : Nat) (stype uid : String)
    (ev : RecipientEvent) (st : FullState) :
    (process_target limit stype uid ev st).1.sequence_index = st.sequence_index ∧
    (process_target limit stype uid ev st).1.last_period = st.last_period ∧
    (process_target limit stype uid ev st).1.last_timestamp = st.last_timestamp ∧
    (process_target limit stype uid ev st).1.last_type = st.last_type := by
  cases ev with
  | skip => exact ⟨rfl, rfl, rfl, rfl⟩
  | genFail => exact ⟨rfl, rfl, rfl, rfl⟩
  | err => exact ⟨rfl, rfl, rfl, rfl⟩
  | ok content updates =>
    exact foldl_update_history_schedule limit uid updates st

lemma run_targets_schedule (limit : Nat) (stype : String)
    (targets : List (String × RecipientEvent)) (st : FullState) :
    (run_targets limit stype targets st).1.sequence_index = st.sequence_index ∧
    (run_targets limit stype targets st).1.last_period = st.last_period ∧
    (run_targets limit stype targets st).1.last_timestamp = st.last_timestamp ∧
    (run_targets limit stype targets st).1.last_type = st.last_type := by
  induction targets generalizing st with
  | nil => exact ⟨rfl, rfl, rfl, rfl⟩
  | cons hd tl ih =>
    have hp := process_target_schedule limit stype hd.1 hd.2 st
    have hr := ih (process_target limit stype hd.1 hd.2 st).1
    simp only [run_targets]
    exact ⟨hr.1.trans hp.1, hr.2.1.trans hp.2.1,
      hr.2.2.1.trans hp.2.2.1, hr.2.2.2.trans hp.2.2.2⟩

lemma NEWS_TIME_PREFERENCES_len (p : TimePeriod) :
    1 < (NEWS_TIME_PREFERENCES p).length := by
  cases p <;> simp [NEWS_TIME_PREFERENCES]

/-- After the exclusion step, the excluded label is never a key of `prefs`
(either it was deleted, or it never was a key). -/
lemma prefsAfterExclusion_lookup_none (period : TimePeriod) (e : String)
    (he : e ≠ "") :
    alistLookup (prefsAfterExclusion period (some e)) e = none := by
  simp only [prefsAfterExclusion]
  split
  · exact alistLookup_alistDel_self _ e
  · rename_i hc
    cases hx : alistLookup (NEWS_TIME_PREFERENCES period) e with
    | none => rfl
    | some v =>
      exact absurd ⟨he, by simp [hx], NEWS_TIME_PREFERENCES_len period⟩ hc

/-- Concrete evaluation: the candidate/weight pairs handed to
`random.choices` for the late-night table with allow-list
`["toutiao", "zhihu"]` and no exclusion — `toutiao`, present with weight
`0.00`, keeps normalized weight `0`. -/
lemma timeBasedDist_late_night :
    timeBasedDist .late_night ["toutiao", "zhihu"] none =
      [("toutiao", 0), ("zhihu", 1)] := by
  rw [timeBasedDist]
  have hv : timeBasedValid .late_night ["toutiao", "zhihu"] none =
      ["toutiao", "zhihu"] := by
    simp [timeBasedValid, prefsAfterExclusion, NEWS_TIME_PREFERENCES,
      alistLookup, List.filter_cons]
  rw [hv]
  simp +decide only [prefsAfterExclusion, floorGet, alistLookup,
    NEWS_TIME_PREFERENCES, List.map_cons, List.map_nil, List.sum_cons,
    List.sum_nil, Option.getD_some, if_true, if_false]
  norm_num

/-! ### Claim theorems -/

/-- In auto mode the selected token is always an element of the effective
sequence, recorded in `last_type`, for every prior state. -/
lemma decide_auto_mem (conf : BasicConf) (st : FullState) (p : TimePeriod)
    (now : String) (hauto : conf.sharing_type = "auto") :
    ∃ s ∈ effectiveSeq conf p,
      (decide_type_with_state conf st p now).1 =
        (parseSharingType s).getD SharingType.greeting ∧
      (decide_type_with_state conf st p now).2.last_type = some s := by
  have hlen : 0 < (effectiveSeq conf p).length :=
    List.length_pos.mpr (effectiveSeq_ne_nil conf p)
  have key : ∀ m : Nat,
      (if m ≥ (effectiveSeq conf p).length then 0 else m) <
        (effectiveSeq conf p).length := by
    intro m
    split
    · exact hlen
    · rename_i h
      exact lt_of_not_ge h
  rw [decide_auto conf st p now hauto]
  simp only []
  exact ⟨(effectiveSeq conf p).getD
    (if (if st.last_period ≠ some p.val then { st with sequence_index := 0 }
         else st).sequence_index ≥ (effectiveSeq conf p).length then 0
     else (if st.last_period ≠ some p.val then { st with sequence_index := 0 }
           else st).sequence_index) "greeting", getD_mem _ _ _ (key _), rfl, rfl⟩

/-- C1: rotation correctness — for a period configured with the three-token
sequence `[a, b, c]`, starting from any persisted state that is not already
inside that period (e.g. the fresh default state), four consecutive
decisions in that period select `a`, `b`, `c`, `a`, and the persisted
cursor equals `1` right after the first decision. -/
theorem rotation_cycle_c1 (conf : BasicConf) (st : FullState) (p : TimePeriod)
    (a b c : SharingType) (n1 n2 n3 n4 : String)
    (hauto : conf.sharing_type = "auto")
    (hseq : conf.seqFor p = [a.val, b.val, c.val])
    (hper : st.last_period ≠ some p.val) :
    (decide_type_with_state conf st p n1).1 = a ∧
    (decide_type_with_state conf st p n1).2.sequence_index = 1 ∧
    (decide_type_with_state conf
      (decide_type_with_state conf st p n1).2 p n2).1 = b ∧
    (decide_type_with_state conf (decide_type_with_state conf
      (decide_type_with_state conf st p n1).2 p n2).2 p n3).1 = c ∧
    (decide_type_with_state conf (decide_type_with_state conf
      (decide_type_with_state conf (decide_type_with_state conf st p n1).2
        p n2).2 p n3).2 p n4).1 = a := by
  have hES : effectiveSeq conf p = [a.val, b.val, c.val] := by
    rw [effectiveSeq_of_nonempty conf p (by simp [hseq]), hseq]
  have h1 : decide_type_with_state conf st p n1 =
      (a, { st with
            sequence_index := 1
            last_period := some p.val
            last_timestamp := some n1
            last_type := some a.val }) := by
    rw [decide_reset conf st p n1 hauto hper, hES]
    simp [parseSharingType_val]
  have h2 : decide_type_with_state conf
      { st with
        sequence_index := 1
        last_period := some p.val
        last_timestamp := some n1
        last_type := some a.val } p n2 =
      (b, { st with
            sequence_index := 2
            last_period := some p.val
            last_timestamp := some n2
            last_type := some b.val }) := by
    rw [decide_step conf _ p n2 hauto rfl (by rw [hES]; simp), hES]
    simp [parseSharingType_val]
  have h3 : decide_type_with_state conf
      { st with
        sequence_index := 2
        last_period := some p.val
        last_timestamp := some n2
        last_type := some b.val } p n3 =
      (c, { st with
            sequence_index := 0
            last_period := some p.val
            last_timestamp := some n3
            last_type := some c.val }) := by
    rw [decide_step conf _ p n3 hauto rfl (by rw [hES]; simp), hES]
    simp [parseSharingType_val]
  have h4 : decide_type_with_state conf
      { st with
        sequence_index := 0
        last_period := some p.val
        last_timestamp := some n3
        last_type := some c.val } p n4 =
      (a, { st with
            sequence_index := 1
            last_period := some p.val
            last_timestamp := some n4
            last_type := some a.val }) := by
    rw [decide_step conf _ p n4 hauto rfl (by rw [hES]; simp), hES]
    simp [parseSharingType_val]
  rw [h1]
  simp only []
  rw [h2]
  simp only []
  rw [h3]
  simp only []
  rw [h4]
  simp

/-- Witness for C1 on a concrete configuration and state. -/
theorem rotation_cycle_c1_witness :
    (decide_type_with_state ⟨"auto", fun _ => ["greeting", "news", "mood"]⟩
      ⟨5, some "night", none, none, []⟩ .morning "t1").1 = .greeting ∧
    (decide_type_with_state ⟨"auto", fun _ => ["greeting", "news", "mood"]⟩
      ⟨5, some "night", none, none, []⟩ .morning "t1").2.sequence_index = 1 ∧
    (decide_type_with_state ⟨"auto", fun _ => ["greeting", "news", "mood"]⟩
      (decide_type_with_state ⟨"auto", fun _ => ["greeting", "news", "mood"]⟩
        ⟨5, some "night", none, none, []⟩ .morning "t1").2 .morning "t2").1 = .news ∧
    (decide_type_with_state ⟨"auto", fun _ => ["greeting", "news", "mood"]⟩
      (decide_type_with_state ⟨"auto", fun _ => ["greeting", "news", "mood"]⟩
        (decide_type_with_state ⟨"auto", fun _ => ["greeting", "news", "mood"]⟩
          ⟨5, some "night", none, none, []⟩ .morning "t1").2 .morning "t2").2
      .morning "t3").1 = .mood ∧
    (decide_type_with_state ⟨"auto", fun _ => ["greeting", "news", "mood"]⟩
      (decide_type_with_state ⟨"auto", fun _ => ["greeting", "news", "mood"]⟩
        (decide_type_with_state ⟨"auto", fun _ => ["greeting", "news", "mood"]⟩
          (decide_type_with_state ⟨"auto", fun _ => ["greeting", "news", "mood"]⟩
            ⟨5, some "night", none, none, []⟩ .morning "t1").2 .morning "t2").2
        .morning "t3").2 .morning "t4").1 = .greeting :=
  rotation_cycle_c1 ⟨"auto", fun _ => ["greeting", "news", "mood"]⟩
    ⟨5, some "night", none, none, []⟩ .morning .greeting .news .mood
    "t1" "t2" "t3" "t4" rfl rfl (by decide)

/-- C2: period-change reset — whenever the requested period differs from the
stored `last_period`, the next decision selects the head of the (nonempty)
configured sequence for the new period, whatever the prior cursor was, and
persists cursor `1 mod length`. -/
theorem period_reset_c2 (conf : BasicConf) (st : FullState) (p : TimePeriod)
    (now : String) (x : String) (rest : List String)
    (hauto : conf.sharing_type = "auto")
    (hseq : conf.seqFor p = x :: rest)
    (hper : st.last_period ≠ some p.val) :
    (decide_type_with_state conf st p now).1 =
      (parseSharingType x).getD SharingType.greeting ∧
    (decide_type_with_state conf st p now).2.last_type = some x ∧
    (decide_type_with_state conf st p now).2.sequence_index =
      1 % (x :: rest).length := by
  have hES : effectiveSeq conf p = x :: rest := by
    rw [effectiveSeq_of_nonempty conf p (by simp [hseq]), hseq]
  rw [decide_reset conf st p now hauto hper, hES]
  simp

/-- Witness for C2: prior cursor 7, stored period `evening`, request `night`. -/
theorem period_reset_c2_witness :
    (decide_type_with_state ⟨"auto", fun _ => ["news", "mood"]⟩
      ⟨7, some "evening", none, none, []⟩ .night "t0").1 =
      (parseSharingType "news").getD SharingType.greeting ∧
    (decide_type_with_state ⟨"auto", fun _ => ["news", "mood"]⟩
      ⟨7, some "evening", none, none, []⟩ .night "t0").2.last_type = some "news" ∧
    (decide_type_with_state ⟨"auto", fun _ => ["news", "mood"]⟩
      ⟨7, some "evening", none, none, []⟩ .night "t0").2.sequence_index =
      1 % (["news", "mood"] : List String).length :=
  period_reset_c2 ⟨"auto", fun _ => ["news", "mood"]⟩
    ⟨7, some "evening", none, none, []⟩ .night "t0" "news" ["mood"]
    rfl rfl (by decide)

/-- C6 (amended): when the configured sequence for the period is empty, the
scheduler rotates over the built-in `SHARING_TYPE_SEQUENCES` fallback —
which is nonempty for every period but has two elements for most periods —
and always returns a decision drawn from it. -/
theorem empty_sequence_fallback_c6 (conf : BasicConf) (st : FullState)
    (p : TimePeriod) (now : String)
    (hauto : conf.sharing_type = "auto")
    (hempty : conf.seqFor p = []) :
    SHARING_TYPE_SEQUENCES p ≠ [] ∧
    ∃ s ∈ SHARING_TYPE_SEQUENCES p,
      (decide_type_with_state conf st p now).1 =
        (parseSharingType s).getD SharingType.greeting ∧
      (decide_type_with_state conf st p now).2.last_type = some s := by
  have hES : effectiveSeq conf p = SHARING_TYPE_SEQUENCES p :=
    effectiveSeq_of_empty conf p hempty
  refine ⟨SHARING_TYPE_SEQUENCES_ne_nil p, ?_⟩
  rw [← hES]
  exact decide_auto_mem conf st p now hauto

/-- Witness for C6 at the forenoon period with an empty configured list. -/
theorem empty_sequence_fallback_c6_witness :
    SHARING_TYPE_SEQUENCES .forenoon ≠ [] ∧
    ∃ s ∈ SHARING_TYPE_SEQUENCES .forenoon,
      (decide_type_with_state ⟨"auto", fun _ => []⟩
        ⟨0, none, none, none, []⟩ .forenoon "t0").1 =
        (parseSharingType s).getD SharingType.greeting ∧
      (decide_type_with_state ⟨"auto", fun _ => []⟩
        ⟨0, none, none, none, []⟩ .forenoon "t0").2.last_type = some s :=
  empty_sequence_fallback_c6 ⟨"auto", fun _ => []⟩
    ⟨0, none, none, none, []⟩ .forenoon "t0" rfl rfl

/-- C6 counterexample: the fallback is NOT a single-element sequence for
every period — with an empty configured sequence for `forenoon`, two
consecutive decisions return two different types (`news` then `knowledge`),
and the built-in fallback list for `forenoon` has two entries. -/
theorem empty_sequence_fallback_c6_counterexample :
    (decide_type_with_state ⟨"auto", fun _ => []⟩
      ⟨0, none, none, none, []⟩ .forenoon "t1").1 = SharingType.news ∧
    (decide_type_with_state ⟨"auto", fun _ => []⟩
      (decide_type_with_state ⟨"auto", fun _ => []⟩
        ⟨0, none, none, none, []⟩ .forenoon "t1").2 .forenoon "t2").1 =
      SharingType.knowledge ∧
    (SHARING_TYPE_SEQUENCES .forenoon).length = 2 := by
  decide

/-- C3: override non-interference — running `_execute_share` with a forced
content type uses exactly the forced type and leaves every `ScheduleState`
field of the persisted state unchanged, for every recipient outcome. -/
theorem override_frame_c3 (conf : BasicConf) (limit : Nat) (t : SharingType)
    (p : TimePeriod) (now : String)
    (targets : List (String × RecipientEvent)) (st : FullState) :
    (execute_share conf limit (some t) p now targets st).1 = t ∧
    (execute_share conf limit (some t) p now targets st).2.1.sequence_index =
      st.sequence_index ∧
    (execute_share conf limit (some t) p now targets st).2.1.last_period =
      st.last_period ∧
    (execute_share conf limit (some t) p now targets st).2.1.last_timestamp =
      st.last_timestamp ∧
    (execute_share conf limit (some t) p now targets st).2.1.last_type =
      st.last_type := by
  have h := run_targets_schedule limit t.val targets st
  exact ⟨rfl, h.1, h.2.1, h.2.2.1, h.2.2.2⟩

/-- C8: the suppression policy table — `cautious` suppresses exactly when
the group is actively discussing at high intensity; `minimal` suppresses
exactly when it is actively discussing or the intensity is not low; with a
calm group (`low`, not discussing) neither policy suppresses. -/
theorem suppression_policy_c8 :
    (∀ g : GroupInfo,
      (check_group_strategy "cautious" (some g) = false ↔
        g.is_discussing = true ∧ g.chat_intensity = "high") ∧
      (check_group_strategy "minimal" (some g) = false ↔
        (g.is_discussing = true ∨ g.chat_intensity ≠ "low"))) ∧
    check_group_strategy "cautious" (some ⟨false, "low"⟩) = true ∧
    check_group_strategy "minimal" (some ⟨false, "low"⟩) = true := by
  refine ⟨fun g => ⟨?_, ?_⟩, by decide, by decide⟩
  · by_cases h : g.is_discussing = true ∧ g.chat_intensity = "high" <;>
      simp +decide [check_group_strategy, h]
  · by_cases h : g.is_discussing = true ∨ g.chat_intensity ≠ "low" <;>
      simp +decide [check_group_strategy, h]

/-- C7 (amended): `usedTopics` returns exactly the keys recorded for the
target/category whose `created_at` is STRICTLY later than the cutoff
`now - windowDays` (the SQL predicate is `created_at > ?`, not `>=`);
consequently a topic recorded `windowDays + 1` days ago is absent and one
recorded `1` day ago is present (for a window of more than one day). -/
theorem dedup_window_c7 (table : List TopicRecord) (target category k : String)
    (now : Int) (days : Int) (hd : 1 < days) :
    (k ∈ get_used_topics table target category now days ↔
      ∃ r ∈ table, r.target = target ∧ r.category = category ∧
        now - days * 86400 < r.createdAt ∧ r.key = k) ∧
    get_used_topics [⟨target, category, k, now - (days + 1) * 86400⟩]
      target category now days = [] ∧
    get_used_topics [⟨target, category, k, now - 86400⟩]
      target category now days = [k] := by
  refine ⟨?_, ?_, ?_⟩
  · simp only [get_used_topics, List.mem_map, List.mem_filter,
      decide_eq_true_eq]
    constructor
    · rintro ⟨r, ⟨hr, hp⟩, hk⟩
      exact ⟨r, hr, hp.1, hp.2.1, hp.2.2, hk⟩
    · rintro ⟨r, hr, h1, h2, h3, hk⟩
      exact ⟨r, ⟨hr, h1, h2, h3⟩, hk⟩
  · simp [get_used_topics, List.filter_cons]
  · have harith : now - days * 86400 < now - 86400 := by omega
    simp [get_used_topics, List.filter_cons, harith]

/-- Witness for C7 with a two-day window. -/
theorem dedup_window_c7_witness :
    get_used_topics [⟨"t", "c", "k", 500000 - (2 + 1) * 86400⟩]
      "t" "c" 500000 2 = [] ∧
    get_used_topics [⟨"t", "c", "k", 500000 - 86400⟩] "t" "c" 500000 2 = ["k"] :=
  (dedup_window_c7 [] "t" "c" "k" 500000 2 (by decide)).2

/-- C7 counterexample: a record whose `created_at` is EXACTLY the cutoff
`now - windowDays` satisfies the claim's `createdAt >= now - windowDays`
condition but is not returned, because the query uses a strict `>`. -/
theorem dedup_window_c7_counterexample :
    get_used_topics [⟨"t", "c", "k", 1000000 - 7 * 86400⟩] "t" "c" 1000000 7
      = [] ∧
    ((1000000 : Int) - 7 * 86400 ≤ 1000000 - 7 * 86400) := by
  constructor
  · decide
  · exact le_refl _

/-- C10: the per-target dedup memory is a fixed-count most-recent-N list —
after any `_update_history` call (with a positive configured limit) the
stored `(target, key_type)` list has at most `topic_history_limit` entries,
its length is exactly `min limit (old length + 1)`, and it is a suffix of
the old list extended with the newly derived summary (so overflow drops the
oldest entries); no time window is involved. -/
theorem topic_history_bound_c10 (limit : Nat) (key_type content target : String)
    (st : FullState) (hl : 0 < limit) :
    (storedHistory (update_history limit key_type content target st)
        target key_type).length ≤ limit ∧
    (storedHistory (update_history limit key_type content target st)
        target key_type).length =
      min limit ((storedHistory st target key_type).length + 1) ∧
    (storedHistory (update_history limit key_type content target st)
        target key_type) <:+
      (storedHistory st target key_type ++ [derive_summary content]) := by
  have hstored :
      storedHistory (update_history limit key_type content target st)
          target key_type =
        (let history := storedHistory st target key_type ++
          [derive_summary content]
         if history.length > limit then pyTakeLast limit history else history) := by
    simp only [storedHistory, update_history, alistLookup_alistSet_self,
      Option.getD_some]
  rw [hstored]
  simp only []
  split
  · rename_i hover
    have hlen := pyTakeLast_length limit
      (storedHistory st target key_type ++ [derive_summary content])
      (by omega)
    refine ⟨?_, ?_, pyTakeLast_suffix _ _⟩
    · rw [hlen]
      omega
    · rw [hlen]
      simp only [List.length_append, List.length_cons, List.length_nil]
      try omega
  · rename_i hnot
    rw [not_lt] at hnot
    refine ⟨?_, ?_, List.suffix_refl _⟩
    · simp only [List.length_append, List.length_cons, List.length_nil] at hnot ⊢
      try omega
    · simp only [List.length_append, List.length_cons, List.length_nil] at hnot ⊢
      try omega

/-- Witness for C10: limit 2, an existing two-entry history overflows. -/
theorem topic_history_bound_c10_witness :
    (storedHistory (update_history 2 "knowledge" "c3" "u"
        ⟨0, none, none, none, [("u", [("knowledge", ["s1", "s2"])])]⟩)
        "u" "knowledge").length ≤ 2 ∧
    (storedHistory (update_history 2 "knowledge" "c3" "u"
        ⟨0, none, none, none, [("u", [("knowledge", ["s1", "s2"])])]⟩)
        "u" "knowledge").length =
      min 2 ((storedHistory ⟨0, none, none, none,
        [("u", [("knowledge", ["s1", "s2"])])]⟩ "u" "knowledge").length + 1) ∧
    (storedHistory (update_history 2 "knowledge" "c3" "u"
        ⟨0, none, none, none, [("u", [("knowledge", ["s1", "s2"])])]⟩)
        "u" "knowledge") <:+
      (storedHistory ⟨0, none, none, none,
        [("u", [("knowledge", ["s1", "s2"])])]⟩ "u" "knowledge" ++
        [derive_summary "c3"]) :=
  topic_history_bound_c10 2 "knowledge" "c3" "u"
    ⟨0, none, none, none, [("u", [("knowledge", ["s1", "s2"])])]⟩ (by decide)

/-- C9 (amended): an exception while processing one recipient is caught and
contributes NO history entry at all (only a generation that returns no
content is recorded as a failed entry); the remaining recipients are
processed exactly as if the failing recipient were absent — the state and
entry list produced after the failure are those of the runs before and
after it, concatenated. -/
theorem recipient_isolation_c9 (limit : Nat) (stype uid : String)
    (xs ys : List (String × RecipientEvent)) (st : FullState) :
    run_targets limit stype (xs ++ (uid, RecipientEvent.err) :: ys) st =
      ((run_targets limit stype ys (run_targets limit stype xs st).1).1,
       (run_targets limit stype xs st).2 ++
         (run_targets limit stype ys (run_targets limit stype xs st).1).2) := by
  induction xs generalizing st with
  | nil => simp [run_targets, process_target]
  | cons hd tl ih =>
    obtain ⟨u2, ev2⟩ := hd
    rw [List.cons_append]
    simp only [run_targets]
    rw [ih]
    simp [List.append_assoc]

set_option maxRecDepth 8192 in
/-- C9 counterexample: with recipient `u1` raising and `u2` succeeding, the
run records NO entry for `u1` (the claim requires a failed entry for it) —
the appended history is exactly `u2`'s success entry — while `u2` is still
processed. -/
theorem recipient_isolation_c9_counterexample :
    (execute_share ⟨"auto", fun _ => []⟩ 20 (some .greeting) .morning "T"
      [("u1", .err), ("u2", .ok "hi" [])] ⟨0, none, none, none, []⟩).2.2 =
      [⟨"u2", "greeting", "hi...", true⟩] := by
  rfl

/-- C4 counterexample: in time-based mode, when the configured allow-list's
intersection with the post-exclusion preference table is empty, the fallback
recomputes the intersection against the UNFILTERED table and can return the
excluded label — here `toutiao` is both the exclusion and the deterministic
result, although the morning weight table has nine entries. -/
theorem exclusion_validity_c4_counterexample :
    select_news_source ⟨"time_based", "zhihu", some ["toutiao"]⟩
      (some "toutiao") .morning 0 0 = some "toutiao" ∧
    1 < (NEWS_TIME_PREFERENCES .morning).length := by
  constructor
  · simp +decide [select_news_source, selectByTime, timeBasedDist,
      timeBasedValid, prefsAfterExclusion, floorGet, alistLookup, alistDel,
      NEWS_TIME_PREFERENCES, weightedChoice, List.filter_cons]
  · simp [NEWS_TIME_PREFERENCES]

/-- C4 (amended): the excluded source can never be selected in `random`
mode, in `config` mode when the duplicate-free configured list keeps more
than one valid source, and in the time-based PRIMARY branch (allow-list
still intersecting the post-exclusion table); the guarantee does not extend
to `fixed` mode or to the time-based empty-intersection fallback. -/
theorem exclusion_validity_c4 (apiSrc e : String) (rso : Option (List String))
    (rs : List String) (period : TimePeriod) (u : ℚ) (r : Nat)
    (he : e ≠ "") (hnd : rs.Nodup) :
    select_news_source ⟨"random", apiSrc, rso⟩ (some e) period u r ≠ some e ∧
    (1 < (rs.filter (fun s => s ∈ NEWS_SOURCE_KEYS)).length →
      select_news_source ⟨"config", apiSrc, some rs⟩ (some e) period u r ≠
        some e) ∧
    (rs ≠ [] →
      rs.filter (fun s =>
        (alistLookup (prefsAfterExclusion period (some e)) s).isSome) ≠ [] →
      select_news_source ⟨"time_based", apiSrc, some rs⟩ (some e) period u r ≠
        some e) := by
  refine ⟨?_, ?_, ?_⟩
  · intro hsel
    simp +decide only [select_news_source, reduceIte, and_true] at hsel
    by_cases hk : e ∈ NEWS_SOURCE_KEYS
    · rw [if_pos ⟨he, hk⟩] at hsel
      exact not_mem_pyRemove_self NEWS_SOURCE_KEYS e (by decide)
        (pyChoice_mem _ r e hsel)
    · rw [if_neg (by intro hc; exact hk hc.2)] at hsel
      exact hk (pyChoice_mem _ r e hsel)
  · intro hlen hsel
    simp +decide only [select_news_source, reduceIte, Option.getD_some] at hsel
    have hvne : rs.filter (fun s => s ∈ NEWS_SOURCE_KEYS) ≠ [] := by
      intro hnil
      rw [hnil] at hlen
      simp at hlen
    rw [if_neg hvne] at hsel
    have hndv : (rs.filter (fun s => s ∈ NEWS_SOURCE_KEYS)).Nodup :=
      hnd.filter _
    by_cases hk : e ∈ rs.filter (fun s => s ∈ NEWS_SOURCE_KEYS)
    · rw [if_pos ⟨he, hk, hlen⟩] at hsel
      exact not_mem_pyRemove_self _ e hndv (pyChoice_mem _ r e hsel)
    · rw [if_neg (by intro hc; exact hk hc.2.1)] at hsel
      exact hk (pyChoice_mem _ r e hsel)
  · intro hne hprim hsel
    simp +decide only [select_news_source, selectByTime, reduceIte] at hsel
    rw [if_neg hne] at hsel
    have hvalid : timeBasedValid period rs (some e) =
        rs.filter (fun s =>
          (alistLookup (prefsAfterExclusion period (some e)) s).isSome) := by
      simp only [timeBasedValid, if_neg hprim]
    rw [if_pos (by rw [hvalid]; exact hprim)] at hsel
    rcases weightedChoice_mem _ u e hsel with ⟨w, hw⟩
    simp only [timeBasedDist, hvalid] at hw
    rcases List.mem_map.mp hw with ⟨s2, hs2, heq⟩
    have hse : s2 = e := congrArg Prod.fst heq
    rw [hse] at hs2
    have hmem := (List.mem_filter.mp hs2).2
    rw [prefsAfterExclusion_lookup_none period e he] at hmem
    simp at hmem

/-- Witness for C4 excluding `weibo` with the allow-list `[zhihu, weibo]`. -/
theorem exclusion_validity_c4_witness :
    select_news_source ⟨"random", "zhihu", none⟩ (some "weibo") .morning 0 0 ≠
      some "weibo" ∧
    (1 < ((["zhihu", "weibo"] : List String).filter
        (fun s => s ∈ NEWS_SOURCE_KEYS)).length →
      select_news_source ⟨"config", "zhihu", some ["zhihu", "weibo"]⟩
        (some "weibo") .morning 0 0 ≠ some "weibo") ∧
    ((["zhihu", "weibo"] : List String) ≠ [] →
      (["zhihu", "weibo"] : List String).filter (fun s =>
        (alistLookup (prefsAfterExclusion .morning (some "weibo")) s).isSome) ≠
          [] →
      select_news_source ⟨"time_based", "zhihu", some ["zhihu", "weibo"]⟩
        (some "weibo") .morning 0 0 ≠ some "weibo") :=
  exclusion_validity_c4 "zhihu" "weibo" none ["zhihu", "weibo"] .morning 0 0
    (by decide) (by decide)

/-- C5 counterexample: in the late-night table the configured source
`toutiao` has weight `0.00`; the weights actually handed to the sampler give
it normalized weight `0`, NOT a `0.1` floor (the floor applies only to keys
missing from the table), and the draw at `u = 0` — the draw most favorable
to the first candidate — still selects `zhihu`. -/
theorem zero_weight_floor_c5_counterexample :
    timeBasedDist .late_night ["toutiao", "zhihu"] none =
      [("toutiao", 0), ("zhihu", 1)] ∧
    weightedChoice (timeBasedDist .late_night ["toutiao", "zhihu"] none) 0 =
      some "zhihu" := by
  refine ⟨timeBasedDist_late_night, ?_⟩
  rw [timeBasedDist_late_night]
  norm_num [weightedChoice]

/-- C5 (amended): a candidate missing from the table is floored to `0.1`,
but a candidate present with weight `0.0` keeps weight `0` and has zero
selection mass — with the allow-list `[toutiao, zhihu]` at late night,
every possible draw selects `zhihu`; `toutiao` is unreachable. -/
theorem zero_weight_floor_c5 (u : ℚ) (s : String) (hu : 0 ≤ u)
    (h : weightedChoice (timeBasedDist .late_night ["toutiao", "zhihu"] none)
      u = some s) :
    s = "zhihu" := by
  rw [timeBasedDist_late_night] at h
  rcases weightedChoice_pos _ u s hu h with ⟨w, hw, hpos⟩
  simp only [List.mem_cons, List.not_mem_nil, or_false, Prod.mk.injEq] at hw
  rcases hw with ⟨hs, hw0⟩ | ⟨hs, hw1⟩
  · rw [hw0] at hpos
    exact absurd hpos (lt_irrefl 0)
  · exact hs

/-- Witness for C5 at the draw `u = 0`. -/
theorem zero_weight_floor_c5_witness :
    ((0 : ℚ) ≤ 0) ∧ "zhihu" = "zhihu" :=
  ⟨le_refl 0, zero_weight_floor_c5 0 "zhihu" (le_refl 0)
    (by rw [timeBasedDist_late_night]; simp [weightedChoice])⟩
